import Mathlib

/-!
# Verification of the goatest process-supervision core

A shallow embedding of the repository's two core files:

* `threadsafe_writer.go` — the `threadSafeWriter` capture buffer
  (`Write`, `getOutput`, `getLines`, `containsOutput`, `waitForOutput`, `reset`);
* the process lifecycle file (`Process`, `Run`, `Stop`, `loadEnvFile` and the
  public accessors `GetOutput`, `GetLines`, `ContainsOutput`, `WaitForOutput`,
  `ResetOutput`).

Modelling conventions:

* Go strings are modelled as `List Char` (`GoString`).  The quote characters
  handled by `loadEnvFile` are one byte in Go, so byte slicing and character
  slicing agree on every path the code takes.
* Go's `strings.TrimSpace` is modelled with `Char.isWhitespace`, which covers
  the whitespace characters appearing in environment files.
* The mutex-protected mutation of `threadSafeWriter` and `Process` is modelled
  by explicit state passing: each operation maps the state before the (lock
  protected) critical section to the state after it.
* Effects delivered by the operating system (opening/scanning the env file,
  creating the two pipes, starting the process, resolving the process group,
  the readiness signal winning or losing its race with the 30-second timer)
  are inputs of the transition functions (`RunInput`, the arguments of `Stop`).
* A Go run-time panic is a distinguished outcome (`none` for the line
  processor, `LoadEnvResult.panicked` / `RunOutcome.panicked` above it); a
  panicking call never returns a value in Go.
-/

/-- Go strings, modelled as character lists so that every operation below is
structurally recursive and kernel-computable. -/
abbrev GoString := List Char

/-- `strings.TrimSpace`: remove leading and trailing whitespace. -/
def trimSpace (cs : GoString) : GoString :=
  ((cs.dropWhile Char.isWhitespace).reverse.dropWhile Char.isWhitespace).reverse

/-- `bytes.Contains haystack needle`: substring test. -/
def containsSub (needle : GoString) : GoString → Bool
  | [] => needle.isEmpty
  | c :: rest => needle.isPrefixOf (c :: rest) || containsSub needle rest

/-- `strings.SplitN line "=" 2`: split at the first occurrence of the
separator; `none` when the separator does not occur (the `len(parts) != 2`
case of `loadEnvFile`). -/
def splitFirst (sep : Char) : GoString → Option (GoString × GoString)
  | [] => none
  | c :: cs =>
    if c = sep then some ([], cs)
    else
      match splitFirst sep cs with
      | none => none
      | some (l, r) => some (c :: l, r)

/-- The capture buffer of `threadsafe_writer.go`.  `delegate` is the optional
passthrough sink; the model records only its identity, since the code never
reads it back and ignores its write errors. -/
structure ThreadSafeWriter where
  buffer : GoString
  lines : List GoString
  delegate : Option GoString

/-- `newThreadSafeWriter`: empty buffer and line list around a delegate. -/
def newThreadSafeWriter (delegate : Option GoString) : ThreadSafeWriter :=
  { buffer := [], lines := [], delegate := delegate }

/-- `threadSafeWriter.Write`: append the chunk to the internal buffer and,
when the chunk is non-empty, append it as one element to `lines`; the
delegate write is best-effort and leaves the captured state unchanged. -/
def ThreadSafeWriter.Write (tsw : ThreadSafeWriter) (p : GoString) : ThreadSafeWriter :=
  { tsw with
    buffer := tsw.buffer ++ p
    lines := if p = [] then tsw.lines else tsw.lines ++ [p] }

/-- `threadSafeWriter.getOutput`: the complete captured output. -/
def ThreadSafeWriter.getOutput (tsw : ThreadSafeWriter) : GoString :=
  tsw.buffer

/-- `threadSafeWriter.getLines`: the captured chunks (the Go code returns a
defensive copy, which is the identity on the value). -/
def ThreadSafeWriter.getLines (tsw : ThreadSafeWriter) : List GoString :=
  tsw.lines

/-- `threadSafeWriter.containsOutput`: substring test on the buffer. -/
def ThreadSafeWriter.containsOutput (tsw : ThreadSafeWriter) (text : GoString) : Bool :=
  containsSub text tsw.buffer

/-- `threadSafeWriter.waitForOutput`: the polling loop observes the buffer of
this writer; the loop body runs at least once exactly when the timeout is
positive, and on an unchanging buffer the poll result is the substring test.
`timeoutPos` says whether the supplied timeout is positive. -/
def ThreadSafeWriter.waitForOutput (tsw : ThreadSafeWriter) (text : GoString)
    (timeoutPos : Bool) : Bool :=
  timeoutPos && tsw.containsOutput text

/-- `threadSafeWriter.reset`: clear `buffer` and `lines`; the delegate field
is untouched. -/
def ThreadSafeWriter.reset (tsw : ThreadSafeWriter) : ThreadSafeWriter :=
  { tsw with buffer := [], lines := [] }

/-- The `map[string]string` environment, as an association list with unique
keys (insertion happens only when the key is absent). -/
abbrev EnvMap := List (GoString × GoString)

/-- Is the trimmed value fully wrapped in matching double or single quotes?
This is exactly the `HasPrefix`/`HasSuffix` condition of `loadEnvFile`. -/
def quoteWrapped (value : GoString) : Bool :=
  ((("\"").toList).isPrefixOf value && (("\"").toList).isSuffixOf value)
    || ((("\x27").toList).isPrefixOf value && (("\x27").toList).isSuffixOf value)

/-- The quote-stripping step `value = value[1 : len(value)-1]` of
`loadEnvFile`.  The Go slice expression requires `1 <= len(value)-1`; on a
wrapped value of length 1 (a lone quote character) it panics with a
slice-bounds violation, modelled here as `none`. -/
def stripQuotes (value : GoString) : Option GoString :=
  if quoteWrapped value then
    if value.length = 1 then none
    else some (value.drop 1).dropLast
  else some value

/-- The final insertion step of the scan loop: "Only set if key doesn't
already exist (Env should override EnvFile)". -/
def envInsert (env : EnvMap) (key value : GoString) : EnvMap :=
  if (List.lookup key env).isSome then env else env ++ [(key, value)]

/-- One iteration of the scan loop of `loadEnvFile`: trim the raw line, skip
blanks and `#` comments, split at the first `=` (skipping lines without one),
trim key and value, strip wrapped quotes, and insert only when the key is not
already present.  `none` models the Go panic of the quote-stripping step. -/
def processEnvLine (env : EnvMap) (rawLine : GoString) : Option EnvMap :=
  let line := trimSpace rawLine
  if line = [] || (("#").toList).isPrefixOf line then some env
  else
    match splitFirst '=' line with
    | none => some env
    | some (rawKey, rawValue) =>
      (stripQuotes (trimSpace rawValue)).map
        (fun value => envInsert env (trimSpace rawKey) value)

/-- The scan loop of `loadEnvFile` over the scanned lines. -/
def loadEnvLines (env : EnvMap) : List GoString → Option EnvMap
  | [] => some env
  | l :: ls =>
    match processEnvLine env l with
    | none => none
    | some env1 => loadEnvLines env1 ls

/-- Result of `loadEnvFile`.  `fail` carries the environment as mutated so
far, because the Go code updates `p.Env` in place while scanning and returns
`scanner.Err()` only afterwards. -/
inductive LoadEnvResult where
  | ok (env : EnvMap)
  | fail (msg : GoString) (env : EnvMap)
  | panicked

/-- `loadEnvFile`: the file system's answer is the input `openResult` —
`Except.error` when `os.Open` fails, otherwise the successfully scanned lines
together with the scanner's final error, if any. -/
def loadEnvFile (env : EnvMap) (openResult : Except GoString (List GoString × Option GoString)) :
    LoadEnvResult :=
  match openResult with
  | Except.error e => LoadEnvResult.fail e env
  | Except.ok (ls, scanErr) =>
    match loadEnvLines env ls with
    | none => LoadEnvResult.panicked
    | some env1 =>
      match scanErr with
      | some e => LoadEnvResult.fail e env1
      | none => LoadEnvResult.ok env1

/-- Spec-worded value transform (spec §6): "a value fully wrapped in matching
single or double quotes has the quotes stripped".  A lone quote character is
not wrapped in a *pair* of quotes, so wrapping requires length at least 2;
the transform is total. -/
def specStripValue (value : GoString) : GoString :=
  if 2 ≤ value.length ∧ quoteWrapped value then (value.drop 1).dropLast else value

/-- Spec-worded line processing (spec §6): blank lines and `#` lines ignored,
split at the first `=`, key and value trimmed, wrapped quotes stripped,
file-sourced keys never overwrite present keys. -/
def specEnvLine (env : EnvMap) (rawLine : GoString) : EnvMap :=
  let line := trimSpace rawLine
  if line = [] || (("#").toList).isPrefixOf line then env
  else
    match splitFirst '=' line with
    | none => env
    | some (rawKey, rawValue) =>
      envInsert env (trimSpace rawKey) (specStripValue (trimSpace rawValue))

/-- Spec-worded parser over a whole file (spec §6). -/
def specParseEnv (env : EnvMap) (ls : List GoString) : EnvMap :=
  ls.foldl specEnvLine env

/-- The `Process` struct.  `WaitingFor` records whether a readiness predicate
is configured (the predicate itself lives in the concurrent pump, outside the
sequential transition); `hasCmd` is `cmd != nil`. -/
structure Process where
  File : GoString
  Env : Option EnvMap
  EnvFile : GoString
  LogStream : Option GoString
  WaitingFor : Bool
  running : Bool
  hasCmd : Bool
  safeWriter : Option ThreadSafeWriter

/-- `Process.GetOutput`: empty string when no capture buffer exists yet. -/
def Process.GetOutput (p : Process) : GoString :=
  match p.safeWriter with
  | some w => w.getOutput
  | none => []

/-- `Process.GetLines`: `nil` (the empty sequence) when no capture buffer
exists yet. -/
def Process.GetLines (p : Process) : List GoString :=
  match p.safeWriter with
  | some w => w.getLines
  | none => []

/-- `Process.ContainsOutput`: `false` when no capture buffer exists yet. -/
def Process.ContainsOutput (p : Process) (text : GoString) : Bool :=
  match p.safeWriter with
  | some w => w.containsOutput text
  | none => false

/-- `Process.WaitForOutput`: reads the writer under the lock, releases, then
delegates; `false` when no capture buffer exists yet. -/
def Process.WaitForOutput (p : Process) (text : GoString) (timeoutPos : Bool) : Bool :=
  match p.safeWriter with
  | some w => w.waitForOutput text timeoutPos
  | none => false

/-- `Process.ResetOutput`: resets the capture buffer when one exists,
otherwise does nothing. -/
def Process.ResetOutput (p : Process) : Process :=
  match p.safeWriter with
  | some w => { p with safeWriter := some w.reset }
  | none => p

/-- Outcome of a call to `Run`.  `panicked` models a Go run-time panic
unwinding out of `Run` (no value is returned). -/
inductive RunOutcome where
  | ok
  | err (msg : GoString)
  | panicked

/-- The environment's answers to the effectful steps of `Run`: the env-file
open/scan result, the three spawn-time error points (`StdoutPipe`,
`StderrPipe`, `Start`), and whether the readiness signal fired before the
30-second timer. -/
structure RunInput where
  envOpen : Except GoString (List GoString × Option GoString)
  stdoutPipeErr : Option GoString
  stderrPipeErr : Option GoString
  startErr : Option GoString
  ready : Bool

/-- Result of `Run`: the returned value, the `Process` state after the call,
and whether `cmd.Start` succeeded during the call. -/
structure RunResult where
  outcome : RunOutcome
  proc : Process
  spawned : Bool

/-- The diagnostic line written before the readiness wait. -/
def waitingMsg : GoString := ("[runner] Waiting for the readiness.\n").toList

/-- The tail of `Run` after the environment merge: store the merged map,
wrap `LogStream` in a fresh writer, build the command, then the two pipe
creations and `Start` in order (each returning its error immediately, with
`running` still false); on success set `running`, and when a readiness
predicate is configured write the diagnostic line and wait on the readiness
signal or the 30-second timer — the select's result does not influence the
returned value. -/
def Process.runAfterEnv (p : Process) (inp : RunInput) (env : EnvMap) : RunResult :=
  let p1 : Process :=
    { p with
      Env := some env
      safeWriter := some (newThreadSafeWriter p.LogStream)
      hasCmd := true }
  match inp.stdoutPipeErr with
  | some e => ⟨RunOutcome.err e, p1, false⟩
  | none =>
    match inp.stderrPipeErr with
    | some e => ⟨RunOutcome.err e, p1, false⟩
    | none =>
      match inp.startErr with
      | some e => ⟨RunOutcome.err e, p1, false⟩
      | none =>
        let p2 : Process := { p1 with running := true }
        let p3 : Process :=
          if p2.WaitingFor then
            { p2 with safeWriter := p2.safeWriter.map (fun w => w.Write waitingMsg) }
          else p2
        ⟨RunOutcome.ok, p3, true⟩

/-- `Process.Run`: no-op when already running; configuration error when no
file is given; initialize a nil `Env`; merge the env file when configured
(aborting, with the cause wrapped, when it fails); then spawn (see
`Process.runAfterEnv`).  On the `panicked` branch no value is returned in
Go, so the `proc` component of that branch is not meaningful. -/
def Process.Run (p : Process) (inp : RunInput) : RunResult :=
  if p.running then ⟨RunOutcome.ok, p, false⟩
  else if p.File = [] then ⟨RunOutcome.err (("no file specified").toList), p, false⟩
  else if p.EnvFile = [] then p.runAfterEnv inp (p.Env.getD [])
  else
    match loadEnvFile (p.Env.getD []) inp.envOpen with
    | LoadEnvResult.panicked => ⟨RunOutcome.panicked, p, false⟩
    | LoadEnvResult.fail e env1 =>
      ⟨RunOutcome.err ((("failed to load env file: ").toList) ++ e),
        { p with Env := some env1 }, false⟩
    | LoadEnvResult.ok env1 => p.runAfterEnv inp env1

/-- Result of `Stop`: the state after the call and which kill was issued
(whole process group, or the fallback kill of the direct child). -/
structure StopResult where
  proc : Process
  killedGroup : Bool
  killedProc : Bool

/-- `Process.Stop`: no-op when not running or no command handle exists;
otherwise kill the process group when the group id resolves (`pgidOk`), else
fall back to killing the direct child when a process handle exists
(`hasProcHandle`); finally clear `running` unconditionally. -/
def Process.Stop (p : Process) (hasProcHandle : Bool) (pgidOk : Bool) : StopResult :=
  if !p.running || !p.hasCmd then ⟨p, false, false⟩
  else if hasProcHandle then
    if pgidOk then ⟨{ p with running := false }, true, false⟩
    else ⟨{ p with running := false }, false, true⟩
  else ⟨{ p with running := false }, false, false⟩

/-! ## Helper lemmas -/

theorem lookup_append_of_some {k v : GoString} :
    ∀ (l1 l2 : EnvMap), List.lookup k l1 = some v → List.lookup k (l1 ++ l2) = some v := by
  intro l1 l2 h
  induction l1 with
  | nil => simp [List.lookup] at h
  | cons hd tl ih =>
    obtain ⟨k1, v1⟩ := hd
    simp only [List.cons_append, List.lookup] at h ⊢
    cases hbeq : (k == k1) with
    | true => rw [hbeq] at h; exact h
    | false => rw [hbeq] at h; exact ih h

theorem envInsert_lookup {env : EnvMap} {key value : GoString} {k v : GoString}
    (hk : List.lookup k env = some v) :
    List.lookup k (envInsert env key value) = some v := by
  unfold envInsert
  split
  · exact hk
  · exact lookup_append_of_some _ _ hk

theorem processEnvLine_lookup {env env1 : EnvMap} {l : GoString} {k v : GoString}
    (h : processEnvLine env l = some env1) (hk : List.lookup k env = some v) :
    List.lookup k env1 = some v := by
  simp only [processEnvLine] at h
  split at h
  · exact (Option.some.inj h) ▸ hk
  · cases hs : splitFirst '=' (trimSpace l) with
    | none =>
      rw [hs] at h
      exact (Option.some.inj h) ▸ hk
    | some pr =>
      obtain ⟨rawKey, rawValue⟩ := pr
      rw [hs] at h
      change (stripQuotes (trimSpace rawValue)).map
          (fun value => envInsert env (trimSpace rawKey) value) = some env1 at h
      cases hq : stripQuotes (trimSpace rawValue) with
      | none => rw [hq] at h; simp at h
      | some value =>
        rw [hq] at h
        simp only [Option.map_some'] at h
        rw [← Option.some.inj h]
        exact envInsert_lookup hk

theorem loadEnvLines_lookup : ∀ (ls : List GoString) (env env1 : EnvMap),
    loadEnvLines env ls = some env1 →
    ∀ k v : GoString, List.lookup k env = some v → List.lookup k env1 = some v := by
  intro ls
  induction ls with
  | nil =>
    intro env env1 h k v hk
    rw [loadEnvLines] at h
    exact (Option.some.inj h) ▸ hk
  | cons l ls ih =>
    intro env env1 h k v hk
    rw [loadEnvLines] at h
    cases hp : processEnvLine env l with
    | none => rw [hp] at h; exact absurd h (by simp)
    | some env2 =>
      rw [hp] at h
      exact ih env2 env1 h k v (processEnvLine_lookup hp hk)

theorem quoteWrapped_ne_nil {value : GoString} (h : quoteWrapped value = true) :
    value ≠ [] := by
  intro hn
  rw [hn] at h
  exact absurd h (by decide)

theorem stripQuotes_spec {value v : GoString} (h : stripQuotes value = some v) :
    specStripValue value = v := by
  unfold stripQuotes at h
  unfold specStripValue
  split at h
  · rename_i hq
    split at h
    · exact absurd h (by simp)
    · rename_i hlen
      have hlen2 : 2 ≤ value.length := by
        have h0 : value.length ≠ 0 := by
          simpa [List.length_eq_zero] using quoteWrapped_ne_nil hq
        omega
      rw [if_pos ⟨hlen2, hq⟩]
      exact Option.some.inj h
  · rename_i hq
    rw [if_neg (fun hc => hq hc.2)]
    exact Option.some.inj h

theorem processEnvLine_spec {env env1 : EnvMap} {l : GoString}
    (h : processEnvLine env l = some env1) : specEnvLine env l = env1 := by
  simp only [processEnvLine] at h
  simp only [specEnvLine]
  split at h
  · rename_i hc
    rw [if_pos hc]
    exact Option.some.inj h
  · rename_i hc
    rw [if_neg hc]
    cases hs : splitFirst '=' (trimSpace l) with
    | none =>
      rw [hs] at h
      exact Option.some.inj h
    | some pr =>
      obtain ⟨rawKey, rawValue⟩ := pr
      rw [hs] at h
      change (stripQuotes (trimSpace rawValue)).map
          (fun value => envInsert env (trimSpace rawKey) value) = some env1 at h
      show envInsert env (trimSpace rawKey) (specStripValue (trimSpace rawValue)) = env1
      cases hq : stripQuotes (trimSpace rawValue) with
      | none => rw [hq] at h; simp at h
      | some value =>
        rw [hq] at h
        simp only [Option.map_some'] at h
        rw [stripQuotes_spec hq]
        exact Option.some.inj h

theorem loadEnvLines_spec : ∀ (ls : List GoString) (env env1 : EnvMap),
    loadEnvLines env ls = some env1 → specParseEnv env ls = env1 := by
  intro ls
  induction ls with
  | nil =>
    intro env env1 h
    rw [loadEnvLines] at h
    obtain rfl := Option.some.inj h
    rfl
  | cons l ls ih =>
    intro env env1 h
    rw [loadEnvLines] at h
    cases hp : processEnvLine env l with
    | none => rw [hp] at h; exact absurd h (by simp)
    | some env2 =>
      rw [hp] at h
      show specParseEnv env (l :: ls) = env1
      simp only [specParseEnv, List.foldl_cons]
      rw [processEnvLine_spec hp]
      show specParseEnv env2 ls = env1
      exact ih env2 env1 h

theorem write_foldl_buffer : ∀ (cs : List GoString) (w : ThreadSafeWriter),
    (cs.foldl ThreadSafeWriter.Write w).buffer = w.buffer ++ cs.flatten := by
  intro cs
  induction cs with
  | nil => intro w; simp
  | cons c cs ih =>
    intro w
    simp only [List.foldl_cons, List.flatten_cons]
    rw [ih]
    simp [ThreadSafeWriter.Write, List.append_assoc]

theorem runAfterEnv_success (p : Process) (inp : RunInput) (env : EnvMap)
    (hout : inp.stdoutPipeErr = none) (herr2 : inp.stderrPipeErr = none)
    (hstart : inp.startErr = none) :
    (p.runAfterEnv inp env).outcome = RunOutcome.ok ∧
    (p.runAfterEnv inp env).proc.running = true ∧
    (p.runAfterEnv inp env).proc.Env = some env ∧
    (p.runAfterEnv inp env).spawned = true := by
  unfold Process.runAfterEnv
  rw [hout, herr2, hstart]
  by_cases hw : p.WaitingFor = true <;> simp [hw]

theorem runAfterEnv_err (p : Process) (inp : RunInput) (env : EnvMap) (e : GoString)
    (h : (p.runAfterEnv inp env).outcome = RunOutcome.err e) :
    (p.runAfterEnv inp env).proc.running = p.running ∧
    (p.runAfterEnv inp env).spawned = false := by
  unfold Process.runAfterEnv at h ⊢
  cases h1 : inp.stdoutPipeErr with
  | some e1 => exact ⟨rfl, rfl⟩
  | none =>
    rw [h1] at h
    cases h2 : inp.stderrPipeErr with
    | some e2 => exact ⟨rfl, rfl⟩
    | none =>
      rw [h2] at h
      cases h3 : inp.startErr with
      | some e3 => exact ⟨rfl, rfl⟩
      | none =>
        rw [h3] at h
        exact absurd h (by simp)

theorem runAfterEnv_running_spawned (p : Process) (inp : RunInput) (env : EnvMap)
    (hrun : p.running = false)
    (h : (p.runAfterEnv inp env).proc.running = true) :
    (p.runAfterEnv inp env).spawned = true ∧ inp.startErr = none := by
  unfold Process.runAfterEnv at h ⊢
  cases h1 : inp.stdoutPipeErr with
  | some e1 => rw [h1] at h; simp [hrun] at h
  | none =>
    rw [h1] at h
    cases h2 : inp.stderrPipeErr with
    | some e2 => rw [h2] at h; simp [hrun] at h
    | none =>
      rw [h2] at h
      cases h3 : inp.startErr with
      | some e3 => rw [h3] at h; simp [hrun] at h
      | none => exact ⟨rfl, rfl⟩

theorem runAfterEnv_env (p : Process) (inp : RunInput) (env : EnvMap) :
    (p.runAfterEnv inp env).proc.Env = some env := by
  unfold Process.runAfterEnv
  cases h1 : inp.stdoutPipeErr with
  | some e1 => rfl
  | none =>
    cases h2 : inp.stderrPipeErr with
    | some e2 => rfl
    | none =>
      cases h3 : inp.startErr with
      | some e3 => rfl
      | none => by_cases hw : p.WaitingFor = true <;> simp [hw]

/-! ## Claim theorems -/

/-- Claim C1, counterexample: the claim as stated says every `Write` appends
the chunk as exactly one new element at the end of `lines`; the empty chunk
refutes it — `Write` on a fresh writer with the empty chunk leaves `lines`
empty instead of appending an empty element. -/
theorem C1_counterexample :
    ¬ (((newThreadSafeWriter none).Write []).lines
        = (newThreadSafeWriter none).lines ++ [([] : GoString)]) := by decide

/-- Claim C1, amended: `Write` extends the buffer (`fullText`) by exactly the
chunk; it appends the chunk as exactly one new element at the end of `lines`
when the chunk is non-empty and leaves `lines` unchanged on the empty chunk;
and after any sequence of appends starting from a fresh writer the buffer
equals the concatenation of all chunks in append order. -/
theorem C1_write_extends (w : ThreadSafeWriter) (chunk : GoString) (chunks : List GoString) :
    (w.Write chunk).buffer = w.buffer ++ chunk ∧
    (w.Write chunk).lines = (if chunk = [] then w.lines else w.lines ++ [chunk]) ∧
    (chunks.foldl ThreadSafeWriter.Write (newThreadSafeWriter w.delegate)).buffer
      = chunks.flatten := by
  refine ⟨rfl, rfl, ?_⟩
  rw [write_foldl_buffer]
  simp [newThreadSafeWriter]

/-- Claim C2: the environment-file merge never overwrites a key that is
already present — every key/value binding of the explicit mapping survives
the merge unchanged, so explicit entries always win over file entries. -/
theorem C2_env_explicit_wins (env env1 : EnvMap) (ls : List GoString)
    (h : loadEnvLines env ls = some env1) (k v : GoString)
    (hk : List.lookup k env = some v) :
    List.lookup k env1 = some v :=
  loadEnvLines_lookup ls env env1 h k v hk

/-- Claim C2, witness: explicit `PORT=1010` with a file line `PORT=9999`
still maps `PORT` to `1010` after the merge. -/
theorem C2_witness :
    List.lookup (("PORT").toList) ([((("PORT").toList), (("1010").toList))])
      = some (("1010").toList) :=
  C2_env_explicit_wins ([((("PORT").toList), (("1010").toList))])
    ([((("PORT").toList), (("1010").toList))]) ([(("PORT=9999").toList)])
    (by decide) (("PORT").toList) (("1010").toList) (by decide)

/-- Claim C6, counterexample: the claim as stated says the parser produces
the described key-to-value mapping for every environment-file text, but on
the line `KEY="` (trimmed value a lone double quote) the scan loop panics and
produces no mapping at all. -/
theorem C6_counterexample : loadEnvLines [] ([(("KEY=\"").toList)]) = none := by decide

/-- Claim C6, amended: whenever the scan loop completes without panicking
(every processed line avoids the lone-quote slice-bounds panic), the mapping
it produces is exactly the one described by the spec — blank lines and `#`
comments ignored, remaining lines split at the first `=`, key and value
whitespace-trimmed, values fully wrapped in matching single or double quotes
stripped of the quotes, and file entries never overwriting present keys. -/
theorem C6_parse_matches_description (env env1 : EnvMap) (ls : List GoString)
    (h : loadEnvLines env ls = some env1) : env1 = specParseEnv env ls :=
  (loadEnvLines_spec ls env env1 h).symm

/-- Claim C6, witness: a file exercising comments, blanks, whitespace, both
quote styles, a separator-free line, a duplicate key and an embedded `=`,
parsed by the code, agrees with the spec description. -/
theorem C6_witness :
    ([((("A").toList), (("1").toList)), ((("B").toList), (("two").toList)),
      ((("C").toList), (("x").toList)), ((("D").toList), (("a=b").toList))])
    = specParseEnv []
        ([(("# c").toList), (("").toList), (("A = 1").toList), (("B=\"two\"").toList),
          (("C=\x27x\x27").toList), (("NOEQ").toList), (("A=dup").toList),
          (("D=a=b").toList)]) :=
  C6_parse_matches_description []
    ([((("A").toList), (("1").toList)), ((("B").toList), (("two").toList)),
      ((("C").toList), (("x").toList)), ((("D").toList), (("a=b").toList))])
    ([(("# c").toList), (("").toList), (("A = 1").toList), (("B=\"two\"").toList),
      (("C=\x27x\x27").toList), (("NOEQ").toList), (("A=dup").toList),
      (("D=a=b").toList)])
    (by decide)

/-- Claim C7: `reset` followed immediately by the snapshot accessors yields
the empty output and an empty line sequence, for every prior state of the
writer, and the configured sink delegate is left unchanged. -/
theorem C7_reset_clears (w : ThreadSafeWriter) :
    w.reset.getOutput = [] ∧ w.reset.getLines = [] ∧ w.reset.delegate = w.delegate :=
  ⟨rfl, rfl, rfl⟩

/-- Claim C9: the quote-stripping step of `loadEnvFile` is not safe for every
trimmed value — on a value of length 1 consisting of a single quote character
(a line such as `KEY="`) the Go slice expression `value[1:0]` violates its
bounds and the scan loop panics instead of terminating normally.  The model
evaluates the code at the failing input. -/
theorem C9_lone_quote_panics :
    stripQuotes (("\"").toList) = none ∧
    stripQuotes (("\x27").toList) = none ∧
    processEnvLine [] (("KEY=\"").toList) = none := by
  refine ⟨by decide, by decide, by decide⟩

/-- Claim C3: `Run`'s static preconditions.  When not already running: an
empty target `File` returns the configuration error with the state unchanged
and nothing spawned; a configured `EnvFile` whose open fails returns an error
wrapping the underlying cause, aborting before spawning with `running` still
false; every erroneous return leaves `running` false with nothing spawned;
and `running` becomes true only after a successful spawn. -/
theorem C3_run_static_failures (p : Process) (inp : RunInput) (hrun : p.running = false) :
    (p.File = [] → p.Run inp = ⟨RunOutcome.err (("no file specified").toList), p, false⟩) ∧
    (∀ e, p.File ≠ [] → p.EnvFile ≠ [] → inp.envOpen = Except.error e →
      (p.Run inp).outcome = RunOutcome.err ((("failed to load env file: ").toList) ++ e) ∧
      (p.Run inp).spawned = false ∧ (p.Run inp).proc.running = false) ∧
    (∀ e, (p.Run inp).outcome = RunOutcome.err e →
      (p.Run inp).proc.running = false ∧ (p.Run inp).spawned = false) ∧
    ((p.Run inp).proc.running = true → (p.Run inp).spawned = true ∧ inp.startErr = none) := by
  refine ⟨?_, ?_, ?_, ?_⟩
  · intro hf
    unfold Process.Run
    rw [hrun, if_neg (by simp), if_pos hf]
  · intro e hf hef hopen
    unfold Process.Run
    rw [hrun, if_neg (by simp), if_neg hf, if_neg hef, hopen]
    exact ⟨rfl, rfl, rfl⟩
  · intro e h
    unfold Process.Run at h ⊢
    rw [hrun, if_neg (by simp)] at h ⊢
    by_cases hf : p.File = []
    · rw [if_pos hf] at h ⊢
      exact ⟨hrun, rfl⟩
    · rw [if_neg hf] at h ⊢
      by_cases hef : p.EnvFile = []
      · rw [if_pos hef] at h ⊢
        have := runAfterEnv_err p inp (p.Env.getD []) e h
        exact ⟨this.1.trans hrun, this.2⟩
      · rw [if_neg hef] at h ⊢
        cases hl : loadEnvFile (p.Env.getD []) inp.envOpen with
        | panicked => rw [hl] at h; exact absurd h (by simp)
        | fail e1 env1 => rw [hl] at h; exact ⟨rfl, rfl⟩
        | ok env1 =>
          rw [hl] at h
          have := runAfterEnv_err p inp env1 e h
          exact ⟨this.1.trans hrun, this.2⟩
  · intro h
    unfold Process.Run at h ⊢
    rw [hrun, if_neg (by simp)] at h ⊢
    by_cases hf : p.File = []
    · rw [if_pos hf] at h
      simp [hrun] at h
    · rw [if_neg hf] at h ⊢
      by_cases hef : p.EnvFile = []
      · rw [if_pos hef] at h ⊢
        exact runAfterEnv_running_spawned p inp (p.Env.getD []) hrun h
      · rw [if_neg hef] at h ⊢
        cases hl : loadEnvFile (p.Env.getD []) inp.envOpen with
        | panicked => rw [hl] at h; simp [hrun] at h
        | fail e1 env1 => rw [hl] at h; simp [hrun] at h
        | ok env1 =>
          rw [hl] at h
          exact runAfterEnv_running_spawned p inp env1 hrun h

/-- Claim C3, witness: a `Process` with no target file returns the
configuration error unchanged, and one whose env file fails to open returns
the wrapped cause without spawning. -/
theorem C3_witness :
    ((Process.mk [] none [] none false false false none).Run
        (RunInput.mk (Except.error []) none none none false)
      = ⟨RunOutcome.err (("no file specified").toList),
          Process.mk [] none [] none false false false none, false⟩) ∧
    (((Process.mk (("f.go").toList) none ((".env").toList) none false false false none).Run
        (RunInput.mk (Except.error (("boom").toList)) none none none false)).outcome
      = RunOutcome.err (("failed to load env file: boom").toList) ∧
     ((Process.mk (("f.go").toList) none ((".env").toList) none false false false none).Run
        (RunInput.mk (Except.error (("boom").toList)) none none none false)).spawned = false ∧
     ((Process.mk (("f.go").toList) none ((".env").toList) none false false false none).Run
        (RunInput.mk (Except.error (("boom").toList)) none none none false)).proc.running
      = false) :=
  ⟨(C3_run_static_failures _ _ rfl).1 rfl,
   (C3_run_static_failures _ _ rfl).2.1 (("boom").toList) (by decide) (by decide) rfl⟩

/-- Claim C4: when a readiness predicate is configured (`WaitingFor`) and the
readiness signal never fires before the 30-second timer (`ready = false`),
a `Run` that passes its static checks and spawn still returns success — the
readiness timeout is never surfaced as an error. -/
theorem C4_readiness_timeout_is_success (p : Process) (inp : RunInput)
    (hrun : p.running = false) (hf : p.File ≠ [])
    (_hwait : p.WaitingFor = true) (_hready : inp.ready = false)
    (henv : p.EnvFile = [] ∨
      ∃ env1, loadEnvFile (p.Env.getD []) inp.envOpen = LoadEnvResult.ok env1)
    (hout : inp.stdoutPipeErr = none) (herr2 : inp.stderrPipeErr = none)
    (hstart : inp.startErr = none) :
    (p.Run inp).outcome = RunOutcome.ok ∧ (p.Run inp).proc.running = true := by
  unfold Process.Run
  rw [hrun, if_neg (by simp), if_neg hf]
  by_cases hef : p.EnvFile = []
  · rw [if_pos hef]
    have := runAfterEnv_success p inp (p.Env.getD []) hout herr2 hstart
    exact ⟨this.1, this.2.1⟩
  · rw [if_neg hef]
    rcases henv with hef2 | ⟨env1, henv1⟩
    · exact absurd hef2 hef
    · rw [henv1]
      have := runAfterEnv_success p inp env1 hout herr2 hstart
      exact ⟨this.1, this.2.1⟩

/-- Claim C4, witness: a process with a readiness predicate whose signal
never fires still gets a success return. -/
theorem C4_witness :
    ((Process.mk (("f.go").toList) none [] none true false false none).Run
        (RunInput.mk (Except.error []) none none none false)).outcome = RunOutcome.ok ∧
    ((Process.mk (("f.go").toList) none [] none true false false none).Run
        (RunInput.mk (Except.error []) none none none false)).proc.running = true :=
  C4_readiness_timeout_is_success _ _ rfl (by decide) rfl rfl (Or.inl rfl) rfl rfl rfl

/-- Claim C5: `Run` and `Stop` are idempotent — calling `Run` while `running`
returns success with the state unchanged and no spawn, and calling `Stop`
when not running or without a command handle returns the state unchanged with
no kill of any kind. -/
theorem C5_run_stop_idempotent (p : Process) (inp : RunInput) (hph pg : Bool) :
    (p.running = true → p.Run inp = ⟨RunOutcome.ok, p, false⟩) ∧
    (p.running = false ∨ p.hasCmd = false → p.Stop hph pg = ⟨p, false, false⟩) := by
  constructor
  · intro h
    unfold Process.Run
    rw [if_pos h]
  · intro h
    unfold Process.Stop
    have hc : (!p.running || !p.hasCmd) = true := by
      rcases h with h | h <;> simp [h]
    rw [if_pos hc]

/-- Claim C5, witness: a running process's second `Run` is a no-op success,
and `Stop` on an idle process performs no kill. -/
theorem C5_witness :
    ((Process.mk (("f.go").toList) none [] none false true true none).Run
        (RunInput.mk (Except.error []) none none none false)
      = ⟨RunOutcome.ok, Process.mk (("f.go").toList) none [] none false true true none,
          false⟩) ∧
    ((Process.mk (("f.go").toList) none [] none false false false none).Stop true true
      = ⟨Process.mk (("f.go").toList) none [] none false false false none, false, false⟩) :=
  ⟨(C5_run_stop_idempotent _ (RunInput.mk (Except.error []) none none none false)
      true true).1 rfl,
   (C5_run_stop_idempotent _ (RunInput.mk (Except.error []) none none none false)
      true true).2 (Or.inl rfl)⟩

/-- Claim C8: while the capture buffer is absent (`safeWriter = none`, i.e.
before the first successful `Run`), every public accessor is total and
neutral: `GetOutput` is empty, `GetLines` is the empty sequence,
`ContainsOutput` and `WaitForOutput` are false for every argument, and
`ResetOutput` changes nothing. -/
theorem C8_nil_writer_accessors (p : Process) (h : p.safeWriter = none)
    (t : GoString) (b : Bool) :
    p.GetOutput = [] ∧ p.GetLines = [] ∧ p.ContainsOutput t = false ∧
    p.WaitForOutput t b = false ∧ p.ResetOutput = p := by
  unfold Process.GetOutput Process.GetLines Process.ContainsOutput Process.WaitForOutput
    Process.ResetOutput
  rw [h]
  exact ⟨rfl, rfl, rfl, rfl, rfl⟩

/-- Claim C8, witness: the accessors evaluated on a freshly configured
process with no capture buffer. -/
theorem C8_witness :
    (Process.mk [] none [] none false false false none).GetOutput = [] ∧
    (Process.mk [] none [] none false false false none).GetLines = [] ∧
    (Process.mk [] none [] none false false false none).ContainsOutput (("x").toList)
      = false ∧
    (Process.mk [] none [] none false false false none).WaitForOutput (("x").toList) true
      = false ∧
    (Process.mk [] none [] none false false false none).ResetOutput
      = Process.mk [] none [] none false false false none :=
  C8_nil_writer_accessors _ rfl (("x").toList) true

/-- Claim C10: `Run` mutates the caller-visible `Env` field itself: with no
env file the field afterwards holds the explicit map (the empty map when it
was nil), with an env file that loads successfully it holds the merged map,
and `Stop` leaves the field alone — so the merged entries remain visible
after `Run` returns and are the map a later `Run` starts from. -/
theorem C10_env_field_mutated (p : Process) (inp : RunInput)
    (hrun : p.running = false) (hf : p.File ≠ []) :
    (p.EnvFile = [] → (p.Run inp).proc.Env = some (p.Env.getD [])) ∧
    (∀ env1, p.EnvFile ≠ [] →
      loadEnvFile (p.Env.getD []) inp.envOpen = LoadEnvResult.ok env1 →
      (p.Run inp).proc.Env = some env1) ∧
    (∀ (q : Process) (hph pg : Bool), (q.Stop hph pg).proc.Env = q.Env) := by
  refine ⟨?_, ?_, ?_⟩
  · intro hef
    unfold Process.Run
    rw [hrun, if_neg (by simp), if_neg hf, if_pos hef]
    exact runAfterEnv_env p inp (p.Env.getD [])
  · intro env1 hef hl
    unfold Process.Run
    rw [hrun, if_neg (by simp), if_neg hf, if_neg hef, hl]
    exact runAfterEnv_env p inp env1
  · intro q hph2 pg2
    unfold Process.Stop
    by_cases hc : (!q.running || !q.hasCmd) = true
    · rw [if_pos hc]
    · rw [if_neg hc]
      cases hph2 <;> cases pg2 <;> rfl

/-- Claim C10, witness: a nil `Env` with an env file `PORT=9999` and explicit
map `PORT=1010` leaves the merged (unchanged) map in the public field after
`Run` returns. -/
theorem C10_witness :
    ((Process.mk (("f.go").toList) (some ([((("PORT").toList), (("1010").toList))]))
        ((".env").toList) none false false false none).Run
      (RunInput.mk (Except.ok ([(("PORT=9999").toList)], none)) none none none
        false)).proc.Env
    = some ([((("PORT").toList), (("1010").toList))]) :=
  (C10_env_field_mutated _ _ rfl (by decide)).2.1
    ([((("PORT").toList), (("1010").toList))]) (by decide) rfl
